import Mathlib

/-
Verification of the merge/reconciliation pipeline of
`scripts/update_taipei_evaluations.py` (taipei-childcare-map).

The Python script is embedded shallowly: every function of the script that
the claims touch is translated into an executable Lean definition, keeping
the source names where Lean allows it.  Python dictionaries are modelled as
association lists with overwrite-on-insert semantics (`updateAssoc`), CSV
rows as string association lists, JSON-decoded records as association lists
with optional (nullable) string values, and floating-point coordinates as
rationals (the script only compares and swaps coordinates, it never does
arithmetic on them, so exact rationals are a faithful model of the
comparisons involved).  I/O is modelled by passing the relevant file and
network contents as explicit arguments.
-/

set_option autoImplicit false

namespace TaipeiUpdate

/-! ## Association lists (model of Python dict) -/

/-- Lookup in an association list: first binding wins, as in a Python dict
where keys are unique. -/
def lookupA {α : Type} {β : Type} [DecidableEq α] : List (α × β) → α → Option β
  | [], _ => none
  | (k, v) :: rest, key => if k = key then some v else lookupA rest key

/-- Model of `d[k] = v` on a Python dict: replace the binding in place when
the key is present, append it otherwise.  Keeps keys unique. -/
def updateAssoc {α : Type} {β : Type} [DecidableEq α] : List (α × β) → α → β → List (α × β)
  | [], key, v => [(key, v)]
  | (k, w) :: rest, key, v =>
    if k = key then (k, v) :: rest else (k, w) :: updateAssoc rest key v

/-- Model of `d.update(kvs)`: fold the pairs into the map in order, later
pairs overwriting earlier ones. -/
def foldUpdate {α : Type} {β : Type} [DecidableEq α]
    (m : List (α × β)) (kvs : List (α × β)) : List (α × β) :=
  kvs.foldl (fun acc kv => updateAssoc acc kv.1 kv.2) m

/-- Lookup returning the last binding of the key, used to describe the
effect of folding a possibly-duplicated pair list into a dict. -/
def lookupLast {α : Type} {β : Type} [DecidableEq α] (m : List (α × β)) (key : α) : Option β :=
  lookupA m.reverse key

/-- Keys of an association list. -/
def keysOf {α : Type} {β : Type} (m : List (α × β)) : List α := m.map Prod.fst

/-- Insertion step of the key-sort applied to `evaluation_by_year` before
emission. -/
def insertByKey (p : String × String) : List (String × String) → List (String × String)
  | [] => [p]
  | q :: rest => if p.1 ≤ q.1 then p :: q :: rest else q :: insertByKey p rest

/-- Model of `dict(sorted(d.items(), key=lambda kv: kv[0]))`: sort the
bindings by key (keys are unique, so stability is irrelevant and insertion
sort produces exactly the Python result). -/
def sortByKey : List (String × String) → List (String × String)
  | [] => []
  | p :: rest => insertByKey p (sortByKey rest)

/-- Left-biased choice on `Option`, the shape of layered dict lookups. -/
def oOr {α : Type} : Option α → Option α → Option α
  | some a, _ => some a
  | none, b => b

/-! ## String helpers (models of the Python string methods used) -/

/-- Model of Python `str.strip()` for the whitespace characters relevant
here (space, tab, carriage return, line feed). -/
def dropTrailingWs (l : List Char) : List Char :=
  (l.reverse.dropWhile Char.isWhitespace).reverse

/-- Model of `s.strip()`. -/
def pyStrip (s : String) : String :=
  String.mk (dropTrailingWs (s.data.dropWhile Char.isWhitespace))

/-- Model of `s.replace(" ", "T")` (single-character pattern, so a simple
character map). -/
def replaceSpaceT (s : String) : String :=
  String.mk (s.data.map (fun c => if c = ' ' then 'T' else c))

/-- Decimal digit accumulator. -/
def digitsToNat : List Char → Nat → Nat
  | [], acc => acc
  | c :: rest, acc => digitsToNat rest (acc * 10 + (c.toNat - '0'.toNat))

/-- Model of Python `int(s)` on an already-stripped string: an optional
single sign followed by a nonempty run of decimal digits (the unicode-digit
and underscore-separator extensions of CPython are not exercised by this
program and are not modelled). -/
def pyIntParse (s : String) : Option Int :=
  let core : List Char → Option Nat := fun l =>
    if l ≠ [] ∧ l.all Char.isDigit then some (digitsToNat l 0) else none
  match s.data with
  | '+' :: rest => (core rest).map (fun n => (n : Int))
  | '-' :: rest => (core rest).map (fun n => -(n : Int))
  | l => (core l).map (fun n => (n : Int))

/-- Model of `safe_int(x)` = `int(str(x).strip())` guarded by `except`.
A `none` argument models Python `None` (`str(None) = "None"` never parses,
so the result is `None`), matching a missing or null field. -/
def safe_int (x : Option String) : Option Int :=
  match x with
  | none => none
  | some s => pyIntParse (pyStrip s)

/-- Decimal rendering of an integer, the model of Python `str(i)` for
`int` values. -/
def intToStr (i : Int) : String :=
  match i with
  | Int.ofNat n => String.mk (Nat.toDigits 10 n)
  | Int.negSucc n => String.mk ('-' :: Nat.toDigits 10 (n + 1))

/-! ## Constants of the script -/

def API_BASE : String :=
  "https://data.taipei/api/v1/dataset/43c0bdc5-ddb0-40bf-accd-a096d8c5ac23?scope=resourceAquire"

def UPDATE_INTERVAL_DAYS : Int := 10

def DEFAULT_LIMIT : Int := 1000

/-! ## The two regular expressions -/

/-- Model of `YEAR_COL_RE = ^(\d{3})年$` applied with `re.match` to a full
string: exactly three ASCII digits followed by the year marker. -/
def yearColMatch (s : String) : Option String :=
  match s.data with
  | [a, b, c, ch] =>
    if a.isDigit ∧ b.isDigit ∧ c.isDigit ∧ ch = '年' then some (String.mk [a, b, c])
    else none
  | _ => none

/-- Model of `LEGACY_EVAL_RE = ^(\d{3})\s*[-－]\s*(.+?)\s*$` under `re.match`:
three digits, optional whitespace, an ASCII or full-width hyphen, optional
whitespace, then the grade group.  Because `.` does not match a line feed
and `\s*$` must absorb the remainder, the grade group is the remainder with
trailing whitespace removed, and it must be nonempty and free of line
feeds. -/
def legacyEvalMatch (s : String) : Option (String × String) :=
  match s.data with
  | a :: b :: c :: rest =>
    if a.isDigit ∧ b.isDigit ∧ c.isDigit then
      match rest.dropWhile Char.isWhitespace with
      | sep :: rest2 =>
        if sep = '-' ∨ sep = '－' then
          let g := dropTrailingWs (rest2.dropWhile Char.isWhitespace)
          if g ≠ [] ∧ g.all (fun ch => ch ≠ '\n') then
            some (String.mk [a, b, c], String.mk g)
          else none
        else none
      | [] => none
    else none
  | _ => none

/-! ## Floats (coordinates) -/

/-- The script only parses, compares and swaps coordinates, so a float is
modelled as either the not-a-number sentinel or an exact rational value.
(Infinities are not modelled; no claim and no realistic input exercises
them.) -/
inductive PyFloat where
  | nan
  | val (q : ℚ)
  deriving DecidableEq

/-- Model of `float(s)` for the grammar this program can meet: optional
sign, decimal digits with an optional fractional part, or the `nan`
literal (case-insensitive).  `none` models `ValueError`.  Exponent forms
are not modelled. -/
def pyFloatParse (s : String) : Option PyFloat :=
  let t := pyStrip s
  let lower := String.mk (t.data.map Char.toLower)
  if lower = "nan" ∨ lower = "+nan" ∨ lower = "-nan" then some PyFloat.nan
  else
    let dec : List Char → Option ℚ := fun l =>
      let ip := l.takeWhile Char.isDigit
      match l.dropWhile Char.isDigit with
      | [] => if ip = [] then none else some ((digitsToNat ip 0 : ℚ))
      | '.' :: fp =>
        if fp.all Char.isDigit ∧ (ip ≠ [] ∨ fp ≠ []) then
          some ((digitsToNat ip 0 : ℚ) + (digitsToNat fp 0 : ℚ) / ((10 : ℚ) ^ fp.length))
        else none
      | _ => none
    match t.data with
    | '+' :: rest => (dec rest).map PyFloat.val
    | '-' :: rest => (dec rest).map (fun q => PyFloat.val (-q))
    | l => (dec l).map PyFloat.val

/-- Model of the `str(x) == "nan"` guard in the geocode loader: the NaN
sentinel becomes `None`, a finite value is kept. -/
def floatToOpt : PyFloat → Option ℚ
  | PyFloat.nan => none
  | PyFloat.val q => some q

/-- Model of `normalize_lat_lng`: swap the pair exactly when both are
present, `abs lat > 90` and `abs lng <= 90`. -/
def normalize_lat_lng (lat lng : Option ℚ) : Option ℚ × Option ℚ :=
  match lat, lng with
  | some la, some ln =>
    if 90 < |la| ∧ |ln| ≤ 90 then (some ln, some la) else (some la, some ln)
  | la, ln => (la, ln)

/-! ## API records and the paginated remote loader -/

/-- One record of the remote dataset: a JSON object with string-keyed
fields whose values are strings or null (`none`).  The `_importdate`
sub-object is flattened into `importdate`: `some d` stands for a record
whose `_importdate` field is a dict carrying a truthy `date` value `d`
(the only part of it the script reads). -/
structure ApiRecord where
  fields : List (String × Option String)
  importdate : Option String
  deriving DecidableEq

/-- Model of `rec.get(k)`: `none` both when the key is missing and when its
value is JSON null, exactly the two cases Python collapses for the later
`safe_int`/truthiness tests. -/
def recGet (r : ApiRecord) (k : String) : Option String :=
  (lookupA r.fields k).join

/-- Model of `str(rec.get("機構名稱") or "").strip()`. -/
def recName (r : ApiRecord) : String :=
  pyStrip ((recGet r "機構名稱").getD "")

/-- Python truthiness of a record dict: nonempty. -/
def recTruthyB (r : ApiRecord) : Bool :=
  !r.fields.isEmpty || r.importdate.isSome

/-- Model of `a or b` on two optional record lookups: the first operand is
kept only when it is a truthy (nonempty) dict. -/
def pyOrRec (a b : Option ApiRecord) : Option ApiRecord :=
  match a with
  | some r => if recTruthyB r then some r else b
  | none => b

/-- Model of the `if rec:` guard: the looked-up record counts as a match
only when it is truthy. -/
def recTruthy (o : Option ApiRecord) : Option ApiRecord :=
  match o with
  | some r => if recTruthyB r then some r else none
  | none => none

/-- Model of `parse_eval_years`: scan the fields in order, keep those whose
stripped key matches the year-column pattern, and store the stripped
stringified value (null becomes the empty string) under the three-digit
year key, later fields overwriting earlier ones. -/
def parse_eval_years (rec : ApiRecord) : List (String × String) :=
  rec.fields.foldl
    (fun years kv =>
      match yearColMatch (pyStrip kv.1) with
      | none => years
      | some yr => updateAssoc years yr (pyStrip (kv.2.getD "")))
    []

/-- Model of the `api_by_no` index: `api_by_no[no] = rec` for every record
whose `編號` field parses as an integer, later records overwriting. -/
def buildByNo (records : List ApiRecord) : List (Int × ApiRecord) :=
  records.foldl
    (fun m rec =>
      match safe_int (recGet rec "編號") with
      | some no => updateAssoc m no rec
      | none => m)
    []

/-- Model of the `api_by_name` index: keyed by the stripped nonempty name,
later records overwriting. -/
def buildByName (records : List ApiRecord) : List (String × ApiRecord) :=
  records.foldl
    (fun m rec =>
      let name := recName rec
      if name ≠ "" then updateAssoc m name rec else m)
    []

/-- The `result` object of one page response, with each field optional as
in JSON (`results : none` covers both a missing and a null array, which
the script collapses through `result.get("results", []) or []`). -/
structure PageResult where
  count : Option Int
  limit : Option Int
  offset : Option Int
  results : Option (List ApiRecord)
  deriving DecidableEq

/-- Metadata captured from the first page, as built in `fetch_all_records`. -/
structure MetaInfo where
  api_url : String
  reported_count : Option Int
  reported_limit : Option Int
  reported_offset : Option Int
  deriving DecidableEq

def metaOfFirst (r : PageResult) : MetaInfo :=
  { api_url := API_BASE
    reported_count := r.count
    reported_limit := r.limit
    reported_offset := r.offset }

/-- The paging loop of `fetch_all_records`.  `pages` maps a requested
offset to the (transport-successful) page response; the `fuel` argument
bounds the number of iterations so the possibly non-terminating `while
True` becomes a total function, `none` meaning the loop has not exited
within `fuel` fetches.  Each iteration extends the accumulator with the
page results and stops when the accumulated length reaches the
page-reported count (defaulting to the accumulated length itself when the
count is absent). -/
def fetchGo (pages : Int → PageResult) :
    Nat → Int → Option MetaInfo → List ApiRecord → Option (List ApiRecord × MetaInfo)
  | 0, _, _, _ => none
  | fuel + 1, offset, metaOpt, out =>
    let result := pages offset
    let meta := metaOpt.getD (metaOfFirst result)
    let out2 := out ++ result.results.getD []
    let count := result.count.getD ((out2.length : Int))
    if (out2.length : Int) ≥ count then some (out2, meta)
    else fetchGo pages fuel (offset + DEFAULT_LIMIT) (some meta) out2

/-- Model of `fetch_all_records` (offsets start at `0`, metadata starts
unset, accumulator starts empty). -/
def fetch_all_records (pages : Int → PageResult) (fuel : Nat) :
    Option (List ApiRecord × MetaInfo) :=
  fetchGo pages fuel 0 none []

/-- Records delivered by the page at the `i`-th offset. -/
def pageRecs (pages : Int → PageResult) (i : Nat) : List ApiRecord :=
  ((pages (DEFAULT_LIMIT * (i : Int))).results).getD []

/-- Accumulated records after consuming pages `0 .. n-1`. -/
def accum (pages : Int → PageResult) : Nat → List ApiRecord
  | 0 => []
  | n + 1 => accum pages n ++ pageRecs pages n

/-- The loop exit condition as evaluated right after consuming page `i`. -/
def stopCondB (pages : Int → PageResult) (i : Nat) : Bool :=
  let out := accum pages (i + 1)
  decide (((out.length : Int)) ≥ ((pages (DEFAULT_LIMIT * (i : Int))).count.getD ((out.length : Int))))

/-! ## CSV rows and the geocode loader -/

/-- A CSV row as produced by `csv.DictReader`: field name to string value.
A missing key models both an absent column and a `None` restval. -/
abbrev Row : Type := List (String × String)

/-- Model of `r.get(k)` on a CSV row. -/
def rowGet (r : Row) (k : String) : Option String := lookupA r k

/-- Model of `(r.get(k) or "").strip()`. -/
def getS (r : Row) (k : String) : String := pyStrip ((rowGet r k).getD "")

/-- One entry of `xy_map`. -/
structure GeoEntry where
  response_address : String
  lat : Option ℚ
  lng : Option ℚ
  deriving DecidableEq

/-- Model of the geocode-table loop in `main`: a row is skipped when its
`id` field is not a parseable integer or parses to `0` (the `if not cid:`
truthiness test), coordinates are parsed with both falling back to `None`
when either raises, the NaN sentinel is dropped, and the pair is passed
through `normalize_lat_lng` before being stored. -/
def xyStep (m : List (Int × GeoEntry)) (r : Row) : List (Int × GeoEntry) :=
  match safe_int (rowGet r "id") with
  | none => m
  | some cid =>
    if cid = 0 then m
    else
      let latS := (rowGet r "lat").getD ""
      let lngS := (rowGet r "lng").getD ""
      let latS := if latS = "" then "nan" else latS
      let lngS := if lngS = "" then "nan" else lngS
      let pair :=
        match pyFloatParse latS, pyFloatParse lngS with
        | some fv, some gv => (floatToOpt fv, floatToOpt gv)
        | _, _ => (none, none)
      let pair := normalize_lat_lng pair.1 pair.2
      updateAssoc m cid
        { response_address := pyStrip ((rowGet r "Response_Address").getD "")
          lat := pair.1
          lng := pair.2 }

def buildXyMap (rows : List Row) : List (Int × GeoEntry) :=
  rows.foldl xyStep []

/-! ## Output document -/

/-- One entry of the output `centers` array. -/
structure CenterSnapshot where
  id : Int
  name : String
  district : String
  address : String
  phone : String
  capacity_approved : String
  capacity_current : String
  response_address : Option String
  lat : Option ℚ
  lng : Option ℚ
  evaluation_by_year : List (String × String)
  source_importdate : Option String
  deriving DecidableEq

/-- The output `meta` object.  `last_successful_update` is optional because
a previously persisted document of foreign origin may lack it; the writer
always sets it. -/
structure Meta where
  source : String
  fetched_at : String
  last_successful_update : Option String
  update_interval_days : Int
  api_reported_count : Option Int
  notes : String
  unmatched_center_ids_in_base_list : List Int
  unmatched_count : Nat
  deriving DecidableEq

/-- The output document. -/
structure Doc where
  meta : Meta
  centers : List CenterSnapshot
  deriving DecidableEq

def NOTES : String :=
  "evaluation_by_year uses Minguo year as string keys, e.g. \x27114\x27. Values like \x27優/甲/乙/丙/已歇業/...\x27 are kept as-is."

/-! ## Reconciler (the per-row body of the loop in `main`) -/

/-- Model of the seeding scan: the first center of the previous document
whose stringified `id` parses back to `cid`. -/
def findOldCenter (ex : Doc) (cid : Int) : Option CenterSnapshot :=
  ex.centers.find? (fun old => decide (safe_int (some (intToStr old.id)) = some cid))

/-- History seeded from the previous document: start from an empty dict
and `update` it with the stored `evaluation_by_year` of the first matching
prior center, if any. -/
def histFor (existing : Option Doc) (cid : Int) : List (String × String) :=
  match existing with
  | none => []
  | some ex =>
    match findOldCenter ex cid with
    | none => []
    | some old => foldUpdate [] old.evaluation_by_year

/-- Model of the legacy-field merge: when the stripped `評鑑結果` field
matches the legacy pattern, overwrite that single year key with the
stripped grade. -/
def legacyMerge (c : Row) (m : List (String × String)) : List (String × String) :=
  match legacyEvalMatch (getS c "評鑑結果") with
  | none => m
  | some yg => updateAssoc m yg.1 (pyStrip yg.2)

/-- The matched remote record for a roster row: lookup by integer id,
`or`-chained with lookup by exact name, then the `if rec:` truthiness
guard. -/
def matchedRec (api_by_no : List (Int × ApiRecord)) (api_by_name : List (String × ApiRecord))
    (cid : Int) (name : String) : Option ApiRecord :=
  recTruthy (pyOrRec (lookupA api_by_no cid) (lookupA api_by_name name))

/-- Model of one iteration of the `for c in centers:` loop: `none` when the
`序號` field does not parse as an integer (the row is silently dropped),
otherwise the emitted snapshot together with the flag telling whether the
row was counted as unmatched. -/
def processCenter (existing : Option Doc) (xy_map : List (Int × GeoEntry))
    (api_by_no : List (Int × ApiRecord)) (api_by_name : List (String × ApiRecord))
    (c : Row) : Option (CenterSnapshot × Bool) :=
  match safe_int (rowGet c "序號") with
  | none => none
  | some cid =>
    let name := getS c "機構名稱"
    let eval1 := legacyMerge c (histFor existing cid)
    let rOpt := matchedRec api_by_no api_by_name cid name
    let eval2 :=
      match rOpt with
      | some r => foldUpdate eval1 (parse_eval_years r)
      | none => eval1
    let geo := lookupA xy_map cid
    some
      ({ id := cid
         name := name
         district := getS c "行政區"
         address := getS c "地址"
         phone := getS c "電話"
         capacity_approved := getS c "核定收托人數"
         capacity_current := getS c "實際收托人數"
         response_address := geo.map GeoEntry.response_address
         lat := geo.bind GeoEntry.lat
         lng := geo.bind GeoEntry.lng
         evaluation_by_year := sortByKey eval2
         source_importdate := rOpt.bind ApiRecord.importdate },
       rOpt.isNone)

/-- The whole loop: the emitted snapshots in roster order and the
unmatched ids in roster order. -/
def reconcile (existing : Option Doc) (xy_map : List (Int × GeoEntry))
    (api_by_no : List (Int × ApiRecord)) (api_by_name : List (String × ApiRecord)) :
    List Row → List CenterSnapshot × List Int
  | [] => ([], [])
  | c :: cs =>
    let rest := reconcile existing xy_map api_by_no api_by_name cs
    match processCenter existing xy_map api_by_no api_by_name c with
    | none => rest
    | some sb => (sb.1 :: rest.1, if sb.2 then sb.1.id :: rest.2 else rest.2)

/-- The contribution of one roster row to the unmatched list: its id when
the row is emitted and counted as unmatched, nothing otherwise. -/
def rowUnmatchedId (existing : Option Doc) (xy_map : List (Int × GeoEntry))
    (api_by_no : List (Int × ApiRecord)) (api_by_name : List (String × ApiRecord))
    (c : Row) : Option Int :=
  match processCenter existing xy_map api_by_no api_by_name c with
  | some sb => if sb.2 then some sb.1.id else none
  | none => none

/-- Assembly of the output document from the loop results, mirroring the
`out = {...}` literal in `main` (both calls of `now_taipei_iso` are
modelled by the same instant, i.e. no time advance within a run). -/
def mkDoc (nowIso : String) (api_meta : MetaInfo) (centers : List CenterSnapshot)
    (unmatched : List Int) : Doc :=
  { meta :=
      { source := API_BASE
        fetched_at := nowIso
        last_successful_update := some nowIso
        update_interval_days := UPDATE_INTERVAL_DAYS
        api_reported_count := api_meta.reported_count
        notes := NOTES
        unmatched_center_ids_in_base_list := unmatched.take 50
        unmatched_count := unmatched.length }
    centers := centers }

/-! ## Datetimes and the staleness gate -/

/-- Leap-year predicate of the proleptic Gregorian calendar. -/
def isLeap (y : Int) : Bool :=
  (y % 4 = 0 ∧ y % 100 ≠ 0) ∨ y % 400 = 0

/-- Days in a month. -/
def daysInMonth (y m : Int) : Int :=
  if m = 2 then (if isLeap y then 29 else 28)
  else if m = 4 ∨ m = 6 ∨ m = 9 ∨ m = 11 then 30
  else 31

/-- Days since 1970-01-01 of a civil date (the standard era-based
computation; Lean `Int` division truncates toward zero exactly like the
C-style formulation this is taken from). -/
def daysFromCivil (y m d : Int) : Int :=
  let y2 := if m ≤ 2 then y - 1 else y
  let era := (if 0 ≤ y2 then y2 else y2 - 399) / 400
  let yoe := y2 - era * 400
  let mp := (m + 9) % 12
  let doy := (153 * mp + 2) / 5 + d - 1
  let doe := yoe * 365 + yoe / 4 - yoe / 100 + doy
  era * 146097 + doe - 719468

/-- A parsed datetime: the wall-clock instant in seconds (`naiveSeconds`,
counted from the 1970 epoch of the wall clock itself) and the UTC offset
in seconds when the string carried one (`tzinfo`). -/
structure PyDateTime where
  naiveSeconds : Int
  tzOffsetSeconds : Option Int
  deriving DecidableEq

/-- Two-digit decimal field. -/
def twoDig (a b : Char) : Int :=
  ((a.toNat - '0'.toNat) * 10 + (b.toNat - '0'.toNat) : Nat)

/-- Model of `datetime.fromisoformat` on the grammar this program
produces and consumes: `YYYY-MM-DDTHH:MM:SS` with an optional `±HH:MM`
offset, fields range-checked (fractional seconds never occur because the
writer zeroes microseconds). -/
def fromisoformat (s : String) : Option PyDateTime :=
  match s.data with
  | y1 :: y2 :: y3 :: y4 :: '-' :: m1 :: m2 :: '-' :: d1 :: d2 :: 'T' ::
      h1 :: h2 :: ':' :: n1 :: n2 :: ':' :: s1 :: s2 :: rest =>
    if [y1, y2, y3, y4, m1, m2, d1, d2, h1, h2, n1, n2, s1, s2].all Char.isDigit then
      let yr : Int := ((twoDig y1 y2) * 100 + twoDig y3 y4)
      let mo := twoDig m1 m2
      let dy := twoDig d1 d2
      let hh := twoDig h1 h2
      let mi := twoDig n1 n2
      let ss := twoDig s1 s2
      if 1 ≤ mo ∧ mo ≤ 12 ∧ 1 ≤ dy ∧ dy ≤ daysInMonth yr mo ∧ hh ≤ 23 ∧ mi ≤ 59 ∧ ss ≤ 59 then
        let naive := daysFromCivil yr mo dy * 86400 + hh * 3600 + mi * 60 + ss
        match rest with
        | [] => some { naiveSeconds := naive, tzOffsetSeconds := none }
        | [sg, o1, o2, ':', o3, o4] =>
          if (sg = '+' ∨ sg = '-') ∧ [o1, o2, o3, o4].all Char.isDigit then
            let oh := twoDig o1 o2
            let om := twoDig o3 o4
            if oh ≤ 23 ∧ om ≤ 59 then
              let off := oh * 3600 + om * 60
              some { naiveSeconds := naive
                     tzOffsetSeconds := some (if sg = '+' then off else -off) }
            else none
          else none
        | _ => none
      else none
    else none
  | _ => none

/-- The fixed Taipei offset, `timezone(timedelta(hours=8))`, in seconds. -/
def TAIPEI_OFFSET : Int := 8 * 3600

/-- Absolute (UTC) seconds of a parsed timestamp, defaulting the zone to
the fixed +08:00 when none was stored — the
`if last_dt.tzinfo is None: last_dt = last_dt.replace(tzinfo=tz)` step. -/
def absSeconds (dt : PyDateTime) : Int :=
  dt.naiveSeconds - dt.tzOffsetSeconds.getD TAIPEI_OFFSET

/-- Model of `should_run_update`.  `forceUpdate` models
`os.getenv("FORCE_UPDATE", "").strip() == "1"`, `nowAbs` the absolute
seconds of `datetime.now(timezone(timedelta(hours=8)))`. -/
def should_run_update (forceUpdate : Bool) (existing : Option Doc) (nowAbs : Int) : Bool :=
  if forceUpdate then true
  else
    match existing with
    | none => true
    | some ex =>
      match ex.meta.last_successful_update with
      | none => true
      | some last =>
        if last = "" then true
        else
          match fromisoformat (replaceSpaceT last) with
          | none => true
          | some dt => decide (nowAbs - absSeconds dt ≥ UPDATE_INTERVAL_DAYS * 86400)

/-! ## Prior document loading and the top of `main` -/

/-- The state of the output file on disk: absent, or present with a raw
text whose JSON decoding either succeeds (`some doc`) or raises
(`none`). -/
inductive FileState where
  | absent
  | present (raw : String) (parsed : Option Doc)

/-- Model of `load_existing_json`: `None` when the file does not exist,
the decoded document when it parses, and a raised `JSONDecodeError`
(`Except.error`) when `json.load` fails — there is no handler around it. -/
def load_existing_json : FileState → Except Unit (Option Doc)
  | FileState.absent => Except.ok none
  | FileState.present _ none => Except.error ()
  | FileState.present _ (some d) => Except.ok (some d)

inductive MainError where
  | jsonError
  | fetchFailure
  deriving DecidableEq

inductive MainStage where
  | skipped
  | missingBase
  | doc (d : Doc)
  deriving DecidableEq

/-- The inputs of one run of `main`, every external effect made explicit:
the force flag, the two CSV files (absent or a list of rows), the network
(offset to page response, with `fuel` bounding the paging loop), the state
of the output file, and the current instant (its ISO rendering for the
meta fields and its absolute seconds for the gate). -/
structure Inputs where
  force : Bool
  centersCsv : Option (List Row)
  xyCsv : Option (List Row)
  pages : Int → PageResult
  fuel : Nat
  fileState : FileState
  nowIso : String
  nowAbs : Int

/-- Model of `main` up to (but not including) the serialize-and-write
step: load the prior document (a decode failure propagates), consult the
staleness gate, require the base roster, load the optional geocode table,
fetch the remote records, and reconcile. -/
def mainCompute (inp : Inputs) : Except MainError MainStage :=
  match load_existing_json inp.fileState with
  | Except.error _ => Except.error MainError.jsonError
  | Except.ok existing =>
    if ¬ should_run_update inp.force existing inp.nowAbs then Except.ok MainStage.skipped
    else
      match inp.centersCsv with
      | none => Except.ok MainStage.missingBase
      | some centers =>
        let xyMap :=
          match inp.xyCsv with
          | none => []
          | some rows => buildXyMap rows
        match fetch_all_records inp.pages inp.fuel with
        | none => Except.error MainError.fetchFailure
        | some ra =>
          let api_by_no := buildByNo ra.1
          let api_by_name := buildByName ra.1
          let oc := reconcile existing xyMap api_by_no api_by_name centers
          Except.ok (MainStage.doc (mkDoc inp.nowIso ra.2 oc.1 oc.2))

/-! ## Snapshot writer -/

inductive WriteOutcome where
  | noChange
  | updated
  deriving DecidableEq

/-- Model of the change check in `main`: `old_json` is the raw text read
from disk when the file exists; the run reports no change exactly when it
equals the fresh serialization. -/
def writerCompare (old_json : Option String) (new_json : String) : WriteOutcome :=
  if old_json = some new_json then WriteOutcome.noChange else WriteOutcome.updated

/-- Content of the output file after a write: the serialization followed
by the trailing line feed that `main` appends. -/
def fileContentAfterWrite (new_json : String) : String :=
  new_json ++ "\n"

/-! ## Lemmas about the dict model -/

theorem oOr_none_left {α : Type} (b : Option α) : oOr none b = b := rfl

theorem oOr_none_right {α : Type} (a : Option α) : oOr a none = a := by
  cases a <;> rfl

theorem oOr_assoc {α : Type} (a b c : Option α) : oOr (oOr a b) c = oOr a (oOr b c) := by
  cases a <;> rfl

theorem lookupA_updateAssoc {α β : Type} [DecidableEq α] (m : List (α × β)) (k : α) (v : β)
    (k' : α) :
    lookupA (updateAssoc m k v) k' = if k = k' then some v else lookupA m k' := by
  induction m with
  | nil => simp [updateAssoc, lookupA]
  | cons p rest ih =>
    obtain ⟨a, w⟩ := p
    simp only [updateAssoc]
    by_cases hak : a = k
    · subst hak
      simp only [if_pos rfl, lookupA]
      by_cases h : a = k' <;> simp [h]
    · simp only [if_neg hak, lookupA, ih]
      by_cases hak' : a = k'
      · subst hak'
        have hk : ¬ k = a := fun h => hak h.symm
        simp [hk]
      · simp [hak']

theorem lookupA_append {α β : Type} [DecidableEq α] (l₁ l₂ : List (α × β)) (k : α) :
    lookupA (l₁ ++ l₂) k = oOr (lookupA l₁ k) (lookupA l₂ k) := by
  induction l₁ with
  | nil => simp [lookupA, oOr]
  | cons p rest ih =>
    simp only [List.cons_append, lookupA]
    by_cases h : p.1 = k
    · simp [h, oOr]
    · simp [h, ih]

theorem lookupA_eq_none_of_not_mem {α β : Type} [DecidableEq α] (m : List (α × β)) (k : α) :
    k ∉ keysOf m → lookupA m k = none := by
  induction m with
  | nil => intro _; rfl
  | cons p rest ih =>
    intro h
    simp only [keysOf, List.map_cons, List.mem_cons, not_or] at h
    have h1 : ¬ p.1 = k := fun e => h.1 e.symm
    simp only [lookupA, if_neg h1]
    exact ih h.2

theorem lookupLast_eq_lookupA {α β : Type} [DecidableEq α] (m : List (α × β)) (k : α) :
    (keysOf m).Nodup → lookupLast m k = lookupA m k := by
  induction m with
  | nil => intro _; rfl
  | cons p rest ih =>
    intro hn
    simp only [keysOf, List.map_cons, List.nodup_cons] at hn
    have hrev : lookupLast (p :: rest) k = oOr (lookupLast rest k) (lookupA [p] k) := by
      simp only [lookupLast, List.reverse_cons]
      exact lookupA_append rest.reverse [p] k
    rw [hrev]
    by_cases hk : p.1 = k
    · have hnone : lookupLast rest k = none := by
        show lookupA rest.reverse k = none
        apply lookupA_eq_none_of_not_mem
        simp only [keysOf, List.map_reverse, List.mem_reverse]
        rw [← hk]
        exact hn.1
      rw [hnone]
      simp [oOr, lookupA, hk]
    · have hone : lookupA [p] k = none := by simp [lookupA, hk]
      rw [hone, oOr_none_right, ih hn.2]
      simp [lookupA, hk]

theorem lookupA_foldUpdate {α β : Type} [DecidableEq α] (kvs m : List (α × β)) (k : α) :
    lookupA (foldUpdate m kvs) k = oOr (lookupLast kvs k) (lookupA m k) := by
  induction kvs generalizing m with
  | nil => rfl
  | cons p rest ih =>
    have step : foldUpdate m (p :: rest) = foldUpdate (updateAssoc m p.1 p.2) rest := rfl
    rw [step, ih]
    have hlast : lookupLast (p :: rest) k =
        oOr (lookupLast rest k) (if p.1 = k then some p.2 else none) := by
      simp only [lookupLast, List.reverse_cons]
      rw [lookupA_append]
      simp [lookupA]
    rw [hlast, oOr_assoc, lookupA_updateAssoc]
    congr 1
    by_cases hk : p.1 = k <;> simp [hk, oOr]

theorem mem_keysOf_updateAssoc {α β : Type} [DecidableEq α] (m : List (α × β)) (k : α) (v : β)
    (x : α) : x ∈ keysOf (updateAssoc m k v) → x ∈ keysOf m ∨ x = k := by
  induction m with
  | nil =>
    intro hx
    right
    simpa [updateAssoc, keysOf] using hx
  | cons p rest ih =>
    intro hx
    obtain ⟨a, w⟩ := p
    by_cases hak : a = k
    · left
      subst hak
      simpa [updateAssoc, keysOf] using hx
    · simp only [updateAssoc, if_neg hak, keysOf, List.map_cons, List.mem_cons] at hx ⊢
      rcases hx with h | h
      · exact Or.inl (Or.inl h)
      · rcases ih h with h2 | h2
        · exact Or.inl (Or.inr h2)
        · exact Or.inr h2

theorem keysNodup_updateAssoc {α β : Type} [DecidableEq α] (m : List (α × β)) (k : α) (v : β) :
    (keysOf m).Nodup → (keysOf (updateAssoc m k v)).Nodup := by
  induction m with
  | nil =>
    intro _
    simp [updateAssoc, keysOf]
  | cons p rest ih =>
    intro hn
    obtain ⟨a, w⟩ := p
    simp only [keysOf, List.map_cons, List.nodup_cons] at hn
    by_cases hak : a = k
    · subst hak
      have hstep : updateAssoc ((a, w) :: rest) a v = (a, v) :: rest := by
        simp [updateAssoc]
      rw [hstep]
      simp only [keysOf, List.map_cons, List.nodup_cons]
      exact hn
    · simp only [updateAssoc, if_neg hak, keysOf, List.map_cons, List.nodup_cons]
      refine ⟨?_, ih hn.2⟩
      intro hmem
      rcases mem_keysOf_updateAssoc rest k v a hmem with h | h
      · exact hn.1 h
      · exact hak h

theorem keysNodup_foldUpdate {α β : Type} [DecidableEq α] (kvs m : List (α × β))
    (hn : (keysOf m).Nodup) : (keysOf (foldUpdate m kvs)).Nodup := by
  induction kvs generalizing m with
  | nil => exact hn
  | cons p rest ih =>
    have step : foldUpdate m (p :: rest) = foldUpdate (updateAssoc m p.1 p.2) rest := rfl
    rw [step]
    exact ih _ (keysNodup_updateAssoc m p.1 p.2 hn)

theorem keysNodup_parse_eval_years (r : ApiRecord) :
    (keysOf (parse_eval_years r)).Nodup := by
  have gen : ∀ (fs : List (String × Option String)) (acc : List (String × String)),
      (keysOf acc).Nodup →
      (keysOf (fs.foldl
        (fun years kv =>
          match yearColMatch (pyStrip kv.1) with
          | none => years
          | some yr => updateAssoc years yr (pyStrip (kv.2.getD ""))) acc)).Nodup := by
    intro fs
    induction fs with
    | nil => intro acc h; exact h
    | cons kv rest ih =>
      intro acc h
      simp only [List.foldl_cons]
      cases yearColMatch (pyStrip kv.1) with
      | none => exact ih acc h
      | some yr => exact ih _ (keysNodup_updateAssoc acc yr _ h)
  exact gen r.fields [] (by simp [keysOf])

theorem lookupA_insertByKey (p : String × String) (l : List (String × String)) (k : String) :
    lookupA (insertByKey p l) k = if p.1 = k then some p.2 else lookupA l k := by
  induction l with
  | nil => simp [insertByKey, lookupA]
  | cons q rest ih =>
    by_cases hle : p.1 ≤ q.1
    · simp [insertByKey, hle, lookupA]
    · simp only [insertByKey, if_neg hle, lookupA, ih]
      by_cases hq : q.1 = k
      · subst hq
        have hne : p.1 ≠ q.1 := fun h => hle (le_of_eq h)
        simp [if_neg hne]
      · simp [hq]

theorem lookupA_sortByKey (l : List (String × String)) (k : String) :
    lookupA (sortByKey l) k = lookupA l k := by
  induction l with
  | nil => rfl
  | cons p rest ih =>
    simp only [sortByKey, lookupA_insertByKey, ih, lookupA]

/-! ## Characterization of the per-row reconciler -/

/-- The merged year map of one row before sorting, named for the lemmas. -/
def eval2Of (existing : Option Doc) (api_by_no : List (Int × ApiRecord))
    (api_by_name : List (String × ApiRecord)) (c : Row) (cid : Int) :
    List (String × String) :=
  match matchedRec api_by_no api_by_name cid (getS c "機構名稱") with
  | some r => foldUpdate (legacyMerge c (histFor existing cid)) (parse_eval_years r)
  | none => legacyMerge c (histFor existing cid)

theorem processCenter_eq (existing : Option Doc) (xy_map : List (Int × GeoEntry))
    (api_by_no : List (Int × ApiRecord)) (api_by_name : List (String × ApiRecord))
    (c : Row) (cid : Int) (hc : safe_int (rowGet c "序號") = some cid) :
    processCenter existing xy_map api_by_no api_by_name c =
      some
        ({ id := cid
           name := getS c "機構名稱"
           district := getS c "行政區"
           address := getS c "地址"
           phone := getS c "電話"
           capacity_approved := getS c "核定收托人數"
           capacity_current := getS c "實際收托人數"
           response_address := (lookupA xy_map cid).map GeoEntry.response_address
           lat := (lookupA xy_map cid).bind GeoEntry.lat
           lng := (lookupA xy_map cid).bind GeoEntry.lng
           evaluation_by_year := sortByKey (eval2Of existing api_by_no api_by_name c cid)
           source_importdate :=
             (matchedRec api_by_no api_by_name cid (getS c "機構名稱")).bind ApiRecord.importdate },
         (matchedRec api_by_no api_by_name cid (getS c "機構名稱")).isNone) := by
  simp only [processCenter, hc, eval2Of]

/-- Lookup in the legacy-merged map. -/
theorem lookupA_legacyMerge (c : Row) (m : List (String × String)) (y : String) :
    lookupA (legacyMerge c m) y =
      oOr
        (match legacyEvalMatch (getS c "評鑑結果") with
         | some yg => if yg.1 = y then some (pyStrip yg.2) else none
         | none => none)
        (lookupA m y) := by
  unfold legacyMerge
  cases legacyEvalMatch (getS c "評鑑結果") with
  | none => rfl
  | some yg =>
    rw [lookupA_updateAssoc]
    by_cases h : yg.1 = y <;> simp [h, oOr]

/-- Keys of the working year map are always unique. -/
theorem keysNodup_legacyMerge (c : Row) (m : List (String × String))
    (hn : (keysOf m).Nodup) : (keysOf (legacyMerge c m)).Nodup := by
  unfold legacyMerge
  cases legacyEvalMatch (getS c "評鑑結果") with
  | none => exact hn
  | some yg => exact keysNodup_updateAssoc m yg.1 (pyStrip yg.2) hn

/-- The central precedence fact: a year key of the final (sorted) map
resolves remote-first, then legacy, then seeded history. -/
theorem lookupA_final_eval (existing : Option Doc) (api_by_no : List (Int × ApiRecord))
    (api_by_name : List (String × ApiRecord)) (c : Row) (cid : Int) (y : String) :
    lookupA (sortByKey (eval2Of existing api_by_no api_by_name c cid)) y =
      oOr
        (match matchedRec api_by_no api_by_name cid (getS c "機構名稱") with
         | some r => lookupA (parse_eval_years r) y
         | none => none)
        (oOr
          (match legacyEvalMatch (getS c "評鑑結果") with
           | some yg => if yg.1 = y then some (pyStrip yg.2) else none
           | none => none)
          (lookupA (histFor existing cid) y)) := by
  rw [lookupA_sortByKey]
  unfold eval2Of
  cases hm : matchedRec api_by_no api_by_name cid (getS c "機構名稱") with
  | none =>
    rw [oOr_none_left]
    exact lookupA_legacyMerge c (histFor existing cid) y
  | some r =>
    rw [lookupA_foldUpdate,
      lookupLast_eq_lookupA (parse_eval_years r) y (keysNodup_parse_eval_years r),
      lookupA_legacyMerge]

/-- Dropping a row with an unparseable id leaves the loop state untouched. -/
theorem reconcile_cons_dropped (existing : Option Doc) (xy_map : List (Int × GeoEntry))
    (api_by_no : List (Int × ApiRecord)) (api_by_name : List (String × ApiRecord))
    (c : Row) (cs : List Row)
    (h : processCenter existing xy_map api_by_no api_by_name c = none) :
    reconcile existing xy_map api_by_no api_by_name (c :: cs) =
      reconcile existing xy_map api_by_no api_by_name cs := by
  simp [reconcile, h]

/-- The unmatched side of the loop is exactly the per-row contributions in
roster order. -/
theorem reconcile_unmatched (existing : Option Doc) (xy_map : List (Int × GeoEntry))
    (api_by_no : List (Int × ApiRecord)) (api_by_name : List (String × ApiRecord))
    (centers : List Row) :
    (reconcile existing xy_map api_by_no api_by_name centers).2 =
      centers.filterMap (rowUnmatchedId existing xy_map api_by_no api_by_name) := by
  induction centers with
  | nil => rfl
  | cons c cs ih =>
    simp only [reconcile, List.filterMap_cons, rowUnmatchedId]
    cases hp : processCenter existing xy_map api_by_no api_by_name c with
    | none => simpa using ih
    | some sb =>
      cases hb : sb.2 with
      | true => simp [hb, ih]
      | false => simp [hb, ih]

/-- The geocode map never carries the key `0`: rows whose id parses to `0`
fail the loader truthiness test. -/
theorem buildXyMap_zero (rows : List Row) : lookupA (buildXyMap rows) 0 = none := by
  have gen : ∀ (rs : List Row) (acc : List (Int × GeoEntry)),
      lookupA acc 0 = none → lookupA (rs.foldl xyStep acc) 0 = none := by
    intro rs
    induction rs with
    | nil => intro acc h; exact h
    | cons r rest ih =>
      intro acc h
      simp only [List.foldl_cons]
      apply ih
      unfold xyStep
      cases safe_int (rowGet r "id") with
      | none => exact h
      | some cid =>
        by_cases h0 : cid = 0
        · simp [h0, h]
        · simp only [if_neg h0, lookupA_updateAssoc, if_neg h0]
          exact h
  exact gen rows [] rfl

/-! ## The paging loop -/

theorem fetchGo_spec (pages : Int → PageResult) (n : Nat)
    (hstop : stopCondB pages n = true)
    (hbefore : ∀ i, i < n → stopCondB pages i = false) :
    ∀ (fuel k : Nat) (m : MetaInfo), k ≤ n →
      fetchGo pages fuel (DEFAULT_LIMIT * (k : Int)) (some m) (accum pages k) =
        if n - k < fuel then some (accum pages (n + 1), m) else none := by
  intro fuel
  induction fuel with
  | zero =>
    intro k m _
    simp [fetchGo]
  | succ fuel ih =>
    intro k m hk
    have hbody : fetchGo pages (fuel + 1) (DEFAULT_LIMIT * (k : Int)) (some m) (accum pages k) =
        (if ((accum pages (k + 1)).length : Int) ≥
            ((pages (DEFAULT_LIMIT * (k : Int))).count.getD ((accum pages (k + 1)).length : Int))
         then some (accum pages (k + 1), m)
         else fetchGo pages fuel (DEFAULT_LIMIT * (k : Int) + DEFAULT_LIMIT) (some m)
           (accum pages (k + 1))) := rfl
    rw [hbody]
    rcases Nat.lt_or_ge k n with hkn | hkn
    · have hc := hbefore k hkn
      simp only [stopCondB, decide_eq_false_iff_not] at hc
      rw [if_neg hc]
      have harith : DEFAULT_LIMIT * (k : Int) + DEFAULT_LIMIT =
          DEFAULT_LIMIT * (((k + 1 : Nat)) : Int) := by push_cast; ring
      rw [harith, ih (k + 1) m (by omega)]
      by_cases hf : n - (k + 1) < fuel
      · rw [if_pos hf, if_pos (by omega)]
      · rw [if_neg hf, if_neg (by omega)]
    · have hkn' : k = n := le_antisymm hk hkn
      subst hkn'
      simp only [stopCondB, decide_eq_true_eq] at hstop
      rw [if_pos hstop, if_pos (by omega)]

theorem fetch_all_records_spec (pages : Int → PageResult) (n : Nat)
    (hstop : stopCondB pages n = true)
    (hbefore : ∀ i, i < n → stopCondB pages i = false) (fuel : Nat) :
    fetch_all_records pages fuel =
      if n < fuel then some (accum pages (n + 1), metaOfFirst (pages 0)) else none := by
  cases fuel with
  | zero => simp [fetch_all_records, fetchGo]
  | succ fuel =>
    have hzero : DEFAULT_LIMIT * ((0 : Nat) : Int) = 0 := by norm_num
    have ha : accum pages 1 = [] ++ (pages 0).results.getD [] := by
      show accum pages 0 ++ pageRecs pages 0 = [] ++ (pages 0).results.getD []
      simp [accum, pageRecs, hzero]
    have hbody : fetch_all_records pages (fuel + 1) =
        (if (((([] ++ (pages 0).results.getD []).length : Nat) : Int) ≥
            ((pages 0).count.getD ((([] ++ (pages 0).results.getD []).length : Nat) : Int)))
         then some (([] ++ (pages 0).results.getD [], metaOfFirst (pages 0)))
         else fetchGo pages fuel (0 + DEFAULT_LIMIT) (some (metaOfFirst (pages 0)))
           ([] ++ (pages 0).results.getD [])) := rfl
    rw [hbody, ← ha]
    have hcond : stopCondB pages 0 =
        decide (((accum pages 1).length : Int) ≥
          ((pages 0).count.getD ((accum pages 1).length : Int))) := by
      simp only [stopCondB, hzero]
    rcases Nat.eq_zero_or_pos n with hn0 | hnpos
    · subst hn0
      simp only [hcond, decide_eq_true_eq] at hstop
      rw [if_pos hstop, if_pos (by omega)]
    · have hc := hbefore 0 hnpos
      simp only [hcond, decide_eq_false_iff_not] at hc
      rw [if_neg hc]
      have harith : (0 : Int) + DEFAULT_LIMIT = DEFAULT_LIMIT * (((1 : Nat)) : Int) := by
        push_cast; ring
      rw [harith, fetchGo_spec pages n hstop hbefore fuel 1 (metaOfFirst (pages 0)) (by omega)]
      by_cases hf : n - 1 < fuel
      · rw [if_pos hf, if_pos (by omega)]
      · rw [if_neg hf, if_neg (by omega)]

/-! ## Claim theorems -/

/-- C2 (code bug): the writer can never report "no change" on a rerun over
a file it wrote itself.  The file on disk ends with the line feed the
writer appends, while the freshly serialized document does not, so the
byte-for-byte comparison always fails and the file is always rewritten,
contrary to both the specification and the script's own comment. -/
theorem writer_never_reports_no_change (j : String) :
    writerCompare (some (fileContentAfterWrite j)) j = WriteOutcome.updated := by
  unfold writerCompare fileContentAfterWrite
  rw [if_neg]
  intro h
  have hj : j ++ "\n" = j := Option.some_inj.mp h
  have hl := congrArg String.length hj
  rw [String.length_append] at hl
  have h1 : ("\n" : String).length = 1 := rfl
  omega

/-- C6: the geo normalizer swaps the pair exactly when both coordinates
are present, the latitude magnitude exceeds 90 and the longitude magnitude
does not; in every other case (including an absent coordinate) the pair
passes through unchanged. -/
theorem normalize_lat_lng_spec (lat lng : Option ℚ) :
    ((∃ la ln, lat = some la ∧ lng = some ln ∧ 90 < |la| ∧ |ln| ≤ 90) →
        normalize_lat_lng lat lng = (lng, lat)) ∧
    ((¬ ∃ la ln, lat = some la ∧ lng = some ln ∧ 90 < |la| ∧ |ln| ≤ 90) →
        normalize_lat_lng lat lng = (lat, lng)) := by
  constructor
  · rintro ⟨la, ln, hla, hln, h1, h2⟩
    subst hla
    subst hln
    simp [normalize_lat_lng, h1, h2]
  · intro hne
    cases lat with
    | none => cases lng <;> rfl
    | some la =>
      cases lng with
      | none => rfl
      | some ln =>
        have hno : ¬ (90 < |la| ∧ |ln| ≤ 90) := fun hcon =>
          hne ⟨la, ln, rfl, rfl, hcon.1, hcon.2⟩
        simp [normalize_lat_lng, hno]

/-- Witness for C6: the two test vectors of the specification. -/
theorem normalize_lat_lng_spec_witness :
    normalize_lat_lng (some (121.5 : ℚ)) (some 25) = (some 25, some 121.5) ∧
    normalize_lat_lng (some (25 : ℚ)) (some 121.5) = (some 25, some 121.5) := by
  constructor
  · exact (normalize_lat_lng_spec (some (121.5 : ℚ)) (some 25)).1
      ⟨121.5, 25, rfl, rfl, by rw [abs_of_pos] <;> norm_num, by rw [abs_of_pos] <;> norm_num⟩
  · exact (normalize_lat_lng_spec (some (25 : ℚ)) (some 121.5)).2
      (by
        rintro ⟨la, ln, hla, hln, h1, h2⟩
        obtain rfl : la = 25 := (Option.some_inj.mp hla).symm
        norm_num at h1)

/-- C4: the final per-year grade resolves with remote-record values first,
then the parsed legacy CSV field for its single year key, then the history
seeded from the prior document. -/
theorem year_precedence (existing : Option Doc) (xy : List (Int × GeoEntry))
    (byNo : List (Int × ApiRecord)) (byName : List (String × ApiRecord))
    (c : Row) (cid : Int) (snap : CenterSnapshot) (b : Bool) (y : String)
    (hc : safe_int (rowGet c "序號") = some cid)
    (hp : processCenter existing xy byNo byName c = some (snap, b)) :
    lookupA snap.evaluation_by_year y =
      oOr
        (match matchedRec byNo byName cid (getS c "機構名稱") with
         | some r => lookupA (parse_eval_years r) y
         | none => none)
        (oOr
          (match legacyEvalMatch (getS c "評鑑結果") with
           | some yg => if yg.1 = y then some (pyStrip yg.2) else none
           | none => none)
          (lookupA (histFor existing cid) y)) := by
  rw [processCenter_eq existing xy byNo byName c cid hc] at hp
  have hpair := Option.some_inj.mp hp
  simp only [Prod.mk.injEq] at hpair
  rw [← hpair.1]
  exact lookupA_final_eval existing byNo byName c cid y

/-- C3: a (year, grade) pair seeded from the prior document survives into
the emitted snapshot whenever neither the legacy CSV field nor the matched
remote record supplies that year key. -/
theorem history_preserved (existing : Option Doc) (xy : List (Int × GeoEntry))
    (byNo : List (Int × ApiRecord)) (byName : List (String × ApiRecord))
    (c : Row) (cid : Int) (ex : Doc) (old : CenterSnapshot)
    (snap : CenterSnapshot) (b : Bool) (yr g : String)
    (hex : existing = some ex)
    (hold : findOldCenter ex cid = some old)
    (hc : safe_int (rowGet c "序號") = some cid)
    (hh : lookupA (foldUpdate ([] : List (String × String)) old.evaluation_by_year) yr = some g)
    (hleg : ∀ yg, legacyEvalMatch (getS c "評鑑結果") = some yg → yg.1 ≠ yr)
    (hrec : ∀ r, matchedRec byNo byName cid (getS c "機構名稱") = some r →
        lookupA (parse_eval_years r) yr = none)
    (hp : processCenter existing xy byNo byName c = some (snap, b)) :
    lookupA snap.evaluation_by_year yr = some g := by
  rw [processCenter_eq existing xy byNo byName c cid hc] at hp
  have hpair := Option.some_inj.mp hp
  simp only [Prod.mk.injEq] at hpair
  rw [← hpair.1]
  show lookupA (sortByKey (eval2Of existing byNo byName c cid)) yr = some g
  rw [lookupA_final_eval]
  have hhist : lookupA (histFor existing cid) yr = some g := by
    simp only [histFor, hex, hold]
    exact hh
  have hX : (match matchedRec byNo byName cid (getS c "機構名稱") with
      | some r => lookupA (parse_eval_years r) yr
      | none => none) = none := by
    cases hm : matchedRec byNo byName cid (getS c "機構名稱") with
    | none => rfl
    | some r => exact hrec r hm
  have hY : (match legacyEvalMatch (getS c "評鑑結果") with
      | some yg => if yg.1 = yr then some (pyStrip yg.2) else none
      | none => none) = none := by
    cases hl : legacyEvalMatch (getS c "評鑑結果") with
    | none => rfl
    | some yg => simp [if_neg (hleg yg hl)]
  rw [hX, hY, oOr_none_left, oOr_none_left, hhist]

/-- C5: with the force flag unset, a prior document present and a parseable
timestamp, the gate permits a run exactly when at least ten whole days have
elapsed in the fixed +08:00 zone. -/
theorem staleness_gate_iff_ten_days (ex : Doc) (s : String) (dt : PyDateTime) (nowAbs : Int)
    (h1 : ex.meta.last_successful_update = some s) (h2 : s ≠ "")
    (h3 : fromisoformat (replaceSpaceT s) = some dt) :
    (should_run_update false (some ex) nowAbs = true ↔
      nowAbs - absSeconds dt ≥ 10 * 86400) := by
  simp only [should_run_update, h1, h3, if_neg h2, Bool.false_eq_true, if_false,
    decide_eq_true_eq, UPDATE_INTERVAL_DAYS]

/-- Witness for C5: a timestamp exactly ten days in the past (fixed +08:00)
permits the run, one of nine days and twenty-three hours skips it. -/
def gateDoc : Doc :=
  { meta :=
      { source := ""
        fetched_at := ""
        last_successful_update := some "2026-01-01T00:00:00"
        update_interval_days := 10
        api_reported_count := none
        notes := ""
        unmatched_center_ids_in_base_list := []
        unmatched_count := 0 }
    centers := [] }

theorem staleness_gate_iff_ten_days_witness :
    should_run_update false (some gateDoc) 1768060800 = true ∧
    should_run_update false (some gateDoc) 1768057200 = false := by
  have hiff := staleness_gate_iff_ten_days gateDoc "2026-01-01T00:00:00"
    { naiveSeconds := 1767225600, tzOffsetSeconds := none } 1768060800 rfl (by decide) (by decide)
  constructor
  · exact hiff.mpr (by decide)
  · decide

/-- C9: a roster row whose id field does not parse as an integer is
silently dropped: no snapshot, no unmatched entry, no error, and the loop
result over the remaining rows is unchanged. -/
theorem unparseable_id_row_dropped (existing : Option Doc) (xy : List (Int × GeoEntry))
    (byNo : List (Int × ApiRecord)) (byName : List (String × ApiRecord))
    (c : Row) (cs : List Row)
    (h : safe_int (rowGet c "序號") = none) :
    processCenter existing xy byNo byName c = none ∧
    reconcile existing xy byNo byName (c :: cs) = reconcile existing xy byNo byName cs := by
  have hp : processCenter existing xy byNo byName c = none := by
    simp only [processCenter, h]
  exact ⟨hp, reconcile_cons_dropped existing xy byNo byName c cs hp⟩

/-- Witness for C9. -/
theorem unparseable_id_row_dropped_witness :
    processCenter none [] [] [] [("序號", "abc")] = none ∧
    reconcile none [] [] [] [[("序號", "abc")]] = reconcile none [] [] [] [] :=
  unparseable_id_row_dropped none [] [] [] [("序號", "abc")] [] (by decide)

/-- C10: the loader of the geocode table drops rows whose id parses to
zero (truthiness), so the geocode map never carries key 0, while the
roster loop still emits a snapshot for id 0 — necessarily with null
geocode fields. -/
theorem id_zero_asymmetry (xyRows : List Row) (existing : Option Doc)
    (byNo : List (Int × ApiRecord)) (byName : List (String × ApiRecord)) (c : Row)
    (hc : safe_int (rowGet c "序號") = some 0) :
    lookupA (buildXyMap xyRows) 0 = none ∧
    ∃ snap b, processCenter existing (buildXyMap xyRows) byNo byName c = some (snap, b) ∧
      snap.id = 0 ∧ snap.lat = none ∧ snap.lng = none ∧ snap.response_address = none := by
  refine ⟨buildXyMap_zero xyRows, ?_⟩
  refine ⟨_, _, processCenter_eq existing (buildXyMap xyRows) byNo byName c 0 hc, rfl, ?_, ?_, ?_⟩
  · show (lookupA (buildXyMap xyRows) 0).bind GeoEntry.lat = none
    rw [buildXyMap_zero]
    rfl
  · show (lookupA (buildXyMap xyRows) 0).bind GeoEntry.lng = none
    rw [buildXyMap_zero]
    rfl
  · show Option.map GeoEntry.response_address (lookupA (buildXyMap xyRows) 0) = none
    rw [buildXyMap_zero]
    rfl

/-- Witness for C10: a geocode row with id 0 exists, yet the loaded map has
no key 0 and the id-0 roster row is emitted with null geocode fields. -/
def xyRows10 : List Row := [[("id", "0"), ("lat", "25.0"), ("lng", "121.5")]]

theorem id_zero_asymmetry_witness :
    lookupA (buildXyMap xyRows10) 0 = none ∧
    ∃ snap b, processCenter none (buildXyMap xyRows10) [] [] [("序號", "0")] = some (snap, b) ∧
      snap.id = 0 ∧ snap.lat = none ∧ snap.lng = none ∧ snap.response_address = none :=
  id_zero_asymmetry xyRows10 none [] [] [("序號", "0")] (by decide)

/-- Witness inputs for C3: a prior document stores grade 乙 for year 111
under id 5, the current roster row for id 5 has no legacy field and
matches no remote record. -/
def old3 : CenterSnapshot :=
  { id := 5
    name := ""
    district := ""
    address := ""
    phone := ""
    capacity_approved := ""
    capacity_current := ""
    response_address := none
    lat := none
    lng := none
    evaluation_by_year := [("111", "乙")]
    source_importdate := none }

def ex3 : Doc :=
  { meta :=
      { source := ""
        fetched_at := ""
        last_successful_update := none
        update_interval_days := 10
        api_reported_count := none
        notes := ""
        unmatched_center_ids_in_base_list := []
        unmatched_count := 0 }
    centers := [old3] }

def c3row : Row := [("序號", "5")]

theorem history_preserved_witness :
    lookupA old3.evaluation_by_year "111" = some "乙" := by
  have hleg : ∀ yg, legacyEvalMatch (getS c3row "評鑑結果") = some yg → yg.1 ≠ "111" := by
    intro yg h
    rw [(by decide : legacyEvalMatch (getS c3row "評鑑結果") = none)] at h
    exact Option.noConfusion h
  have hrec : ∀ r, matchedRec [] [] 5 (getS c3row "機構名稱") = some r →
      lookupA (parse_eval_years r) "111" = none := by
    intro r h
    rw [(by decide : matchedRec [] [] 5 (getS c3row "機構名稱") = none)] at h
    exact Option.noConfusion h
  exact history_preserved (some ex3) [] [] [] c3row 5 ex3 old3 old3 true "111" "乙"
    rfl (by decide) (by decide) (by decide) hleg hrec (by decide)

/-- Witness inputs for C4: prior history 111→乙, legacy field `111-甲`,
remote record supplying 111年→丙 — the remote value wins. -/
def rec4 : ApiRecord :=
  { fields := [("編號", some "5"), ("111年", some "丙")], importdate := none }

def ex4 : Doc :=
  { meta :=
      { source := ""
        fetched_at := ""
        last_successful_update := none
        update_interval_days := 10
        api_reported_count := none
        notes := ""
        unmatched_center_ids_in_base_list := []
        unmatched_count := 0 }
    centers :=
      [{ id := 5
         name := ""
         district := ""
         address := ""
         phone := ""
         capacity_approved := ""
         capacity_current := ""
         response_address := none
         lat := none
         lng := none
         evaluation_by_year := [("111", "乙")]
         source_importdate := none }] }

def c4row : Row := [("序號", "5"), ("評鑑結果", "111-甲")]

def snap4 : CenterSnapshot :=
  { id := 5
    name := ""
    district := ""
    address := ""
    phone := ""
    capacity_approved := ""
    capacity_current := ""
    response_address := none
    lat := none
    lng := none
    evaluation_by_year := [("111", "丙")]
    source_importdate := none }

theorem year_precedence_witness :
    processCenter (some ex4) [] (buildByNo [rec4]) (buildByName [rec4]) c4row =
      some (snap4, false) ∧
    lookupA snap4.evaluation_by_year "111" = some "丙" := by
  constructor
  · decide
  · rw [year_precedence (some ex4) [] (buildByNo [rec4]) (buildByName [rec4]) c4row 5 snap4
      false "111" (by decide) (by decide)]
    decide

/-- C7: a roster row whose parsed id matches no remote record by integer
id and none by exact name is recorded as unmatched but still emitted, with
exactly the history/legacy-merged year map; the unmatched side of the loop
lists the per-row unmatched ids in roster order, and the meta fields are
that list capped at 50 together with its true length. -/
theorem unmatched_accounting (existing : Option Doc) (xy : List (Int × GeoEntry))
    (byNo : List (Int × ApiRecord)) (byName : List (String × ApiRecord))
    (c : Row) (cid : Int)
    (hc : safe_int (rowGet c "序號") = some cid)
    (hno : lookupA byNo cid = none)
    (hname : lookupA byName (getS c "機構名稱") = none) :
    processCenter existing xy byNo byName c =
      some
        ({ id := cid
           name := getS c "機構名稱"
           district := getS c "行政區"
           address := getS c "地址"
           phone := getS c "電話"
           capacity_approved := getS c "核定收托人數"
           capacity_current := getS c "實際收托人數"
           response_address := (lookupA xy cid).map GeoEntry.response_address
           lat := (lookupA xy cid).bind GeoEntry.lat
           lng := (lookupA xy cid).bind GeoEntry.lng
           evaluation_by_year := sortByKey (legacyMerge c (histFor existing cid))
           source_importdate := none },
         true) ∧
    rowUnmatchedId existing xy byNo byName c = some cid ∧
    (∀ centers : List Row,
      (reconcile existing xy byNo byName centers).2 =
        centers.filterMap (rowUnmatchedId existing xy byNo byName)) ∧
    (∀ (nowIso : String) (am : MetaInfo) (snaps : List CenterSnapshot)
        (unmatched : List Int),
      (mkDoc nowIso am snaps unmatched).meta.unmatched_center_ids_in_base_list =
          unmatched.take 50 ∧
      (mkDoc nowIso am snaps unmatched).meta.unmatched_count = unmatched.length) := by
  have hm : matchedRec byNo byName cid (getS c "機構名稱") = none := by
    unfold matchedRec pyOrRec
    rw [hno, hname]
    rfl
  have h1 : processCenter existing xy byNo byName c =
      some
        ({ id := cid
           name := getS c "機構名稱"
           district := getS c "行政區"
           address := getS c "地址"
           phone := getS c "電話"
           capacity_approved := getS c "核定收托人數"
           capacity_current := getS c "實際收托人數"
           response_address := (lookupA xy cid).map GeoEntry.response_address
           lat := (lookupA xy cid).bind GeoEntry.lat
           lng := (lookupA xy cid).bind GeoEntry.lng
           evaluation_by_year := sortByKey (legacyMerge c (histFor existing cid))
           source_importdate := none },
         true) := by
    rw [processCenter_eq existing xy byNo byName c cid hc]
    unfold eval2Of
    rw [hm]
    rfl
  have h2 : rowUnmatchedId existing xy byNo byName c = some cid := by
    unfold rowUnmatchedId
    rw [h1]
    rfl
  exact ⟨h1, h2, reconcile_unmatched existing xy byNo byName, fun _ _ _ _ => ⟨rfl, rfl⟩⟩

/-- Witness for C7. -/
def am7 : MetaInfo :=
  { api_url := API_BASE, reported_count := none, reported_limit := none,
    reported_offset := none }

theorem unmatched_accounting_witness :
    rowUnmatchedId none [] [] [] [("序號", "7")] = some 7 ∧
    (reconcile none [] [] [] [[("序號", "7")]]).2 = [7] ∧
    (mkDoc "" am7 [] [7]).meta.unmatched_center_ids_in_base_list = [7] ∧
    (mkDoc "" am7 [] [7]).meta.unmatched_count = 1 := by
  have h := unmatched_accounting none [] [] [] [("序號", "7")] 7 (by decide) rfl rfl
  refine ⟨h.2.1, ?_, ?_, ?_⟩
  · rw [h.2.2.1 [[("序號", "7")]]]
    simp [List.filterMap_cons, h.2.1]
  · rw [(h.2.2.2 "" am7 [] [7]).1]
    decide
  · rw [(h.2.2.2 "" am7 [] [7]).2]
    decide

/-- C8: the paging loop accumulates page results, advancing the offset by
the fixed page size, exits exactly after the first page at which the
accumulated total reaches the reported count (defaulting to the
accumulated total when absent), and returns the accumulated records with
the first page's reported count/limit/offset as metadata; with too little
fuel to reach that page the loop is still running. -/
theorem fetch_paging_characterization (pages : Int → PageResult) (n : Nat)
    (hstop : stopCondB pages n = true)
    (hbefore : ∀ i, i < n → stopCondB pages i = false) (fuel : Nat) :
    fetch_all_records pages fuel =
      if n < fuel then some (accum pages (n + 1), metaOfFirst (pages 0)) else none :=
  fetch_all_records_spec pages n hstop hbefore fuel

/-- Witness for C8: a single page reporting count 0 stops the loop at
once. -/
def pages8 : Int → PageResult := fun _ =>
  { count := some 0, limit := some 1000, offset := some 0, results := some [] }

theorem fetch_paging_characterization_witness :
    fetch_all_records pages8 1 = some ([], metaOfFirst (pages8 0)) := by
  have h := fetch_paging_characterization pages8 0 (by decide)
    (fun i hi => absurd hi (Nat.not_lt_zero i)) 1
  rw [h, if_pos (by decide : (0 : Nat) < 1)]
  decide

/-- C1 (corrected): only an absent prior file is treated as "no prior
document" (the gate then permits the run and no history is seeded); a
present but unparseable file makes `json.load` raise, aborting `main`
before the gate ever runs. -/
theorem prior_absent_vs_malformed :
    (load_existing_json FileState.absent = Except.ok none) ∧
    (∀ (f : Bool) (now : Int), should_run_update f none now = true) ∧
    (∀ cid : Int, histFor none cid = []) ∧
    (∀ (inp : Inputs) (raw : String), inp.fileState = FileState.present raw none →
      mainCompute inp = Except.error MainError.jsonError) := by
  refine ⟨rfl, ?_, fun _ => rfl, ?_⟩
  · intro f now
    cases f <;> rfl
  · intro inp raw h
    unfold mainCompute
    rw [h]
    rfl

/-- Concrete run inputs with a malformed prior document, and the same run
over an absent one. -/
def pagesC1 : Int → PageResult := fun _ =>
  { count := some 0, limit := none, offset := none, results := some [] }

def inputsMalformed : Inputs :=
  { force := false
    centersCsv := some []
    xyCsv := none
    pages := pagesC1
    fuel := 1
    fileState := FileState.present "not json" none
    nowIso := ""
    nowAbs := 0 }

def inputsAbsent : Inputs :=
  { inputsMalformed with fileState := FileState.absent }

/-- C1 counterexample: with a malformed prior document the run raises a
decode error; the very same inputs with the file absent instead run to
completion — malformed is not treated like absent, and the gate never gets
to permit anything. -/
theorem malformed_prior_raises :
    mainCompute inputsMalformed = Except.error MainError.jsonError ∧
    mainCompute inputsAbsent =
      Except.ok (MainStage.doc (mkDoc ""
        { api_url := API_BASE, reported_count := some 0, reported_limit := none,
          reported_offset := none } [] [])) := by
  constructor
  · rfl
  · rfl

/-- Witness for the amended C1. -/
theorem prior_absent_vs_malformed_witness :
    should_run_update false none 0 = true ∧
    histFor none 5 = [] ∧
    mainCompute inputsMalformed = Except.error MainError.jsonError :=
  ⟨prior_absent_vs_malformed.2.1 false 0, prior_absent_vs_malformed.2.2.1 5,
   prior_absent_vs_malformed.2.2.2 inputsMalformed "not json" rfl⟩

end TaipeiUpdate
